import Mathlib

/-!
# Verification of the Firehose error-replay and Step Function trigger tools

This file gives a shallow embedding of the two TypeScript automation tools in
this repository (`src/index.ts`, the Firehose error-replay tool, and
`src/trigger-step-function.ts`, the Step Function trigger tool) and proves the
behavioural properties stated in the design document.

External AWS SDK calls (S3 get, Firehose PutRecordBatch, SFN StartExecution)
and external parsing libraries (JSON.parse, base64 decoding) are modelled as
oracle parameters: the embedding is parametric in the responses those
collaborators return, and the theorems quantify over all possible responses.
-/

namespace RetryFirehose

/-! ## The bounded-concurrency task runner

Both tools run their per-item operations through `Bluebird.map(items, op,
{concurrency})`.  The Bluebird library itself is not part of this repository,
so the runner is modelled from the design document's description of the
component (§4.1): a sliding-window scheduler that keeps a pool of at most
`concurrency` operations in flight, starts the next un-started item whenever a
slot frees, and writes each item's result into the output slot of that item's
original index. -/

/-- Modelled from the spec: the tagged result of processing one work item
(`Outcome<T>` of §3): either a success carrying a value or a failure carrying
an error message. -/
inductive Outcome (β : Type) where
  | success : β → Outcome β
  | failure : String → Outcome β
deriving DecidableEq, Repr

/-- Modelled from the spec: the internal state of the bounded-concurrency
runner.  `nextIdx` is the cursor into the item list (the index of the next
un-started item), `pending` the indices currently in flight, `results` the
output slots (one per item, `none` while not yet completed), and
`invocations` the number of times the per-item operation has been invoked. -/
structure RunnerState (β : Type) where
  nextIdx : Nat
  pending : List Nat
  results : List (Option β)
  invocations : Nat
deriving DecidableEq, Repr

/-- Modelled from the spec: the runner's initial state for `n` items: cursor
at the start, nothing in flight, all output slots empty, no invocations. -/
def initState (β : Type) (n : Nat) : RunnerState β :=
  ⟨0, [], List.replicate n none, 0⟩

/-- Modelled from the spec: one scheduling step of the bounded-concurrency
runner over `items` with cap `c` and per-item operation `f`.  A `start` step
launches the operation for the next un-started item, allowed only while fewer
than `c` operations are in flight; a `complete` step finishes any pending
operation (chosen by the environment, so completion order is arbitrary) and
writes its result into the slot of its original index. -/
inductive RunnerStep (items : List α) (c : Nat) (f : α → β) :
    RunnerState β → RunnerState β → Prop where
  | start (s : RunnerState β) (hidx : s.nextIdx < items.length)
      (hcap : s.pending.length < c) :
      RunnerStep items c f s
        ⟨s.nextIdx + 1, s.nextIdx :: s.pending, s.results, s.invocations + 1⟩
  | complete (s : RunnerState β) (j : Nat) (hj : j ∈ s.pending) :
      RunnerStep items c f s
        ⟨s.nextIdx, s.pending.erase j,
          s.results.set j (Option.map f items[j]?), s.invocations⟩

/-- A runner state reachable from the initial state by scheduling steps. -/
def Reachable (items : List α) (c : Nat) (f : α → β) (s : RunnerState β) : Prop :=
  Relation.ReflTransGen (RunnerStep items c f) (initState β items.length) s

/-- The runner invariant: the output list keeps one slot per item, the cursor
never passes the end, at most `c` operations are in flight, in-flight indices
are distinct and already started, the invocation count equals the number of
started items, every started-and-completed slot holds its own item's result,
and every other slot is still empty. -/
structure RunnerInv (items : List α) (c : Nat) (f : α → β) (s : RunnerState β) : Prop where
  len : s.results.length = items.length
  cursor : s.nextIdx ≤ items.length
  cap : s.pending.length ≤ c
  nodup : s.pending.Nodup
  pend_lt : ∀ j ∈ s.pending, j < s.nextIdx
  inv_eq : s.invocations = s.nextIdx
  res_done : ∀ j, j < s.nextIdx → j ∉ s.pending →
      s.results[j]? = some (Option.map f items[j]?)
  res_waiting : ∀ j, j < items.length → s.nextIdx ≤ j ∨ j ∈ s.pending →
      s.results[j]? = some none

theorem runnerInv_init (items : List α) (c : Nat) (f : α → β) :
    RunnerInv items c f (initState β items.length) where
  len := by simp [initState]
  cursor := by simp [initState]
  cap := by simp [initState]
  nodup := by simp [initState]
  pend_lt := by simp [initState]
  inv_eq := rfl
  res_done := by simp [initState]
  res_waiting := by
    intro j hj _
    simp [initState, List.getElem?_replicate, hj]

theorem runnerInv_step {items : List α} {c : Nat} {f : α → β}
    {s t : RunnerState β} (hinv : RunnerInv items c f s)
    (hstep : RunnerStep items c f s t) : RunnerInv items c f t := by
  cases hstep with
  | start hidx hcap =>
      refine ⟨hinv.len, hidx, ?_, ?_, ?_, ?_, ?_, ?_⟩
      · dsimp only
        simpa using hcap
      · dsimp only
        exact List.Nodup.cons (fun h => absurd (hinv.pend_lt _ h) (by omega)) hinv.nodup
      · dsimp only
        intro j hj
        rcases List.mem_cons.mp hj with h | h
        · omega
        · exact Nat.lt_succ_of_lt (hinv.pend_lt _ h)
      · dsimp only
        simpa using hinv.inv_eq
      · dsimp only
        intro j hj hj2
        have hne : j ≠ s.nextIdx := fun h => hj2 (by simp [h])
        have hnp : j ∉ s.pending := fun h => hj2 (List.mem_cons_of_mem _ h)
        exact hinv.res_done j (by omega) hnp
      · dsimp only
        intro j hjlen hj
        refine hinv.res_waiting j hjlen ?_
        rcases hj with h | h
        · exact Or.inl (by omega)
        · rcases List.mem_cons.mp h with h | h
          · exact Or.inl (by omega)
          · exact Or.inr h
  | complete j hj =>
      have hjidx : j < s.nextIdx := hinv.pend_lt _ hj
      have hjlen : j < s.results.length := by
        have := hinv.cursor; have := hinv.len; omega
      refine ⟨?_, hinv.cursor, ?_, hinv.nodup.erase _, ?_, hinv.inv_eq, ?_, ?_⟩
      · dsimp only
        simpa using hinv.len
      · dsimp only
        exact le_trans (List.length_erase_le _ _) hinv.cap
      · dsimp only
        intro k hk
        exact hinv.pend_lt _ (List.mem_of_mem_erase hk)
      · dsimp only
        intro k hk hknp
        by_cases hkj : k = j
        · subst hkj
          exact List.getElem?_set_eq_of_lt _ hjlen
        · rw [List.getElem?_set_ne (fun h => hkj h.symm)]
          refine hinv.res_done k hk ?_
          intro hkp
          exact hknp ((hinv.nodup.mem_erase_iff).mpr ⟨hkj, hkp⟩)
      · dsimp only
        intro k hklen hk
        have hkj : k ≠ j := by
          rcases hk with h | h
          · omega
          · exact ((hinv.nodup.mem_erase_iff).mp h).1
        rw [List.getElem?_set_ne (fun h => hkj h.symm)]
        refine hinv.res_waiting k hklen ?_
        rcases hk with h | h
        · exact Or.inl h
        · exact Or.inr (List.mem_of_mem_erase h)

theorem runnerInv_reachable {items : List α} {c : Nat} {f : α → β}
    {s : RunnerState β} (h : Reachable items c f s) : RunnerInv items c f s := by
  induction h with
  | refl => exact runnerInv_init items c f
  | tail _ hstep ih => exact runnerInv_step ih hstep

/-- In a drained final state (all items started, nothing in flight) every
output slot holds its own item's result, in input order. -/
theorem runner_final_results {items : List α} {c : Nat} {f : α → β}
    {s : RunnerState β} (h : Reachable items c f s)
    (hdone : s.nextIdx = items.length) (hpend : s.pending = []) :
    s.results = items.map (fun a => some (f a)) := by
  have hinv := runnerInv_reachable h
  apply List.ext_getElem?
  intro j
  by_cases hj : j < items.length
  · have hdj := hinv.res_done j (by omega) (by simp [hpend])
    rw [hdj]
    simp [List.getElem?_eq_getElem hj]
  · have h1 : s.results[j]? = none :=
      List.getElem?_eq_none (by rw [hinv.len]; omega)
    have h2 : (items.map (fun a => some (f a)))[j]? = none :=
      List.getElem?_eq_none (by simp only [List.length_map]; omega)
    rw [h1, h2]

/-! ## The Firehose error-replay tool (`src/index.ts`) -/

/-- The replay tool's concurrency cap: `private readonly concurrency: number
= 50` (`src/index.ts` line 44), used for listing, download, delivery and
deletion. -/
def FirehoseErrorRetry.concurrency : Nat := 50

/-- The per-batch record cap of `sendToFirehose`: `const batchSize = 500`
(`src/index.ts` line 282). -/
def batchSize : Nat := 500

/-- The chunking loop of `sendToFirehose` (`src/index.ts` lines 286-287):
`for (let i = 0; i < records.length; i += batchSize)` taking
`records.slice(i, i + batchSize)` each iteration.  The fuel argument bounds
the number of iterations; `records.length` iterations always suffice when the
step is positive. -/
def chunkLoop (n : Nat) : Nat → List α → List (List α)
  | 0, _ => []
  | _, [] => []
  | fuel + 1, l => l.take n :: chunkLoop n fuel (l.drop n)

/-- The batches submitted by `sendToFirehose` for a record list. -/
def chunkRecords (n : Nat) (records : List α) : List (List α) :=
  chunkLoop n records.length records

/-- The final `/`-separated segment of a character list: the segment after
the last `'/'`, the whole list when no `'/'` occurs, and the empty list when
the list ends in `'/'`.  This is the last element of a JS `split('/')`. -/
def lastSlashSegAux (cur : List Char) : List Char → List Char
  | [] => cur.reverse
  | ch :: rest =>
    if ch = '/' then lastSlashSegAux [] rest else lastSlashSegAux (ch :: cur) rest

/-- The delivery stream name extracted from the configured ARN:
`this.firehoseArn.split('/').pop()` (`src/index.ts` line 274) — the final
`/`-separated segment (for a string with no `/`, the string itself). -/
def deliveryStreamName (arn : String) : String :=
  String.mk (lastSlashSegAux [] arn.data)

/-- The failure count one batch contributes (`src/index.ts` lines 293-308):
the response's `FailedPutCount` when the `PutRecordBatch` call returns, the
whole batch length when the call throws. -/
def chunkFailures (respond : List ρ → Except ε Nat) (chunk : List ρ) : Nat :=
  match respond chunk with
  | Except.ok failedPutCount => failedPutCount
  | Except.error _ => chunk.length

/-- `sendToFirehose` (`src/index.ts` lines 266-313), parametric in the
Firehose client response `respond` (giving each submitted batch's
`FailedPutCount`, or a thrown transport error).  Returns the list of batches
actually submitted together with either the thrown
`'Invalid Firehose ARN format'` configuration error or the success flag
`failureCount === 0`.  An empty record list returns success immediately,
before the ARN is parsed and without submitting anything. -/
def sendToFirehose (arn : String) (respond : List ρ → Except ε Nat)
    (records : List ρ) : List (List ρ) × Except String Bool :=
  if records.length = 0 then ([], Except.ok true)
  else if deliveryStreamName arn = "" then
    ([], Except.error "Invalid Firehose ARN format")
  else
    let chunks := chunkRecords batchSize records
    (chunks, Except.ok ((chunks.map (chunkFailures respond)).sum == 0))

/-- JS `split('\n')` on a character list: the newline-separated segments,
with `[[]]` for the empty input (JS `''.split('\n')` is `['']`). -/
def splitNl : List Char → List (List Char)
  | [] => [[]]
  | ch :: rest =>
    if ch = '\n' then [] :: splitNl rest
    else
      match splitNl rest with
      | [] => [[ch]]
      | seg :: segs => (ch :: seg) :: segs

/-- The nonblank lines of a downloaded body:
`bodyString.split('\n').filter(line => line.trim())`
(`src/index.ts` line 236).  A line survives the filter exactly when its JS
`trim()` is a nonempty (truthy) string, i.e. when it has a non-whitespace
character. -/
def nonblankLines (body : String) : List String :=
  ((splitNl body.data).filter
    (fun l => l.any (fun ch => !ch.isWhitespace))).map (fun l => String.mk l)

/-- The per-line decoding loop of `downloadAndDecodeS3Object`
(`src/index.ts` lines 238-253).  `decodeLine` models the external
collaborators applied to one line — `JSON.parse`, base64 decoding of
`rawData`, `JSON.parse` of the decoded payload — returning `none` when any of
them throws.  Returns the decoded records together with the warning
diagnostics, each truncated to `line.substring(0, 100)`. -/
def decodeLinesLoop (decodeLine : String → Option ρ) :
    List String → List ρ × List String
  | [] => ([], [])
  | line :: rest =>
    let tail := decodeLinesLoop decodeLine rest
    match decodeLine line with
    | some r => (r :: tail.1, tail.2)
    | none => (tail.1, String.mk (line.data.take 100) :: tail.2)

/-- `downloadAndDecodeS3Object` (`src/index.ts` lines 217-260), parametric in
the S3 response `fetch`: `Except.error` models the GetObject call or the body
stream throwing (caught at line 256, producing an empty record list),
`Except.ok none` a response without a body (line 226), and
`Except.ok (some body)` the downloaded body text.  The second component is
the list of per-line parse diagnostics. -/
def downloadAndDecodeS3Object (decodeLine : String → Option ρ)
    (fetch : Except ε (Option String)) : List ρ × List String :=
  match fetch with
  | Except.error _ => ([], [])
  | Except.ok none => ([], [])
  | Except.ok (some body) => decodeLinesLoop decodeLine (nonblankLines body)

/-- The per-key result of `run`'s download stage (`src/index.ts` lines
372-394): both branches return `{ key, records, totalRecords }`, with no
success flag. -/
structure FileResult (ρ : Type) where
  key : String
  records : List ρ
  totalRecords : Nat
deriving DecidableEq, Repr

/-- The per-file result of `run`'s delivery stage (`src/index.ts` lines
412-429). -/
structure SendResult where
  key : String
  success : Bool
  recordCount : Nat
deriving DecidableEq, Repr

/-- The aggregate outcome of `run` (`src/index.ts` lines 431-446): the keys
deleted, the records sent from successful files, and the failed file count. -/
structure RunOutcome where
  filesToDelete : List String
  sentCount : Nat
  failedCount : Nat
deriving DecidableEq, Repr

/-- `run`'s download stage (`src/index.ts` lines 372-394): one
`FileResult` per key, in key order. -/
def downloadStage (download : String → List ρ) (keys : List String) :
    List (FileResult ρ) :=
  keys.map (fun k => ⟨k, download k, (download k).length⟩)

/-- `run`'s collection step (`src/index.ts` lines 399-404): only files with
at least one record enter `processedFiles`. -/
def processedFiles (results : List (FileResult ρ)) : List (FileResult ρ) :=
  results.filter (fun r => 0 < r.records.length)

/-- `run`'s delivery stage (`src/index.ts` lines 412-429) over the processed
files.  A thrown ARN-format error rejects the per-item promise, which aborts
the whole `Bluebird.map`; this propagation is modelled by `Except.error`. -/
def deliveryStage (arn : String) (respond : List ρ → Except ε Nat) :
    List (FileResult ρ) → Except String (List SendResult)
  | [] => Except.ok []
  | f :: rest =>
    match (sendToFirehose arn respond f.records).2 with
    | Except.error e => Except.error e
    | Except.ok ok =>
      match deliveryStage arn respond rest with
      | Except.error e => Except.error e
      | Except.ok others => Except.ok (⟨f.key, ok, f.records.length⟩ :: others)

/-- `run` (`src/index.ts` lines 354-453) after the listing stage: download
and decode each key, keep the files that produced records, deliver them, and
derive the deletion list (`filesToDelete`, lines 431-434), the sent-record
count (lines 436-438) and the failed-file count (line 445). -/
def runPipeline (arn : String) (decodeLine : String → Option ρ)
    (fetch : String → Except ε (Option String))
    (respond : List ρ → Except ε2 Nat) (keys : List String) :
    Except String RunOutcome :=
  match deliveryStage arn respond (processedFiles (downloadStage
      (fun k => (downloadAndDecodeS3Object decodeLine (fetch k)).1) keys)) with
  | Except.error e => Except.error e
  | Except.ok sendResults =>
    Except.ok
      { filesToDelete := (sendResults.filter (fun r => r.success)).map (fun r => r.key)
        sentCount :=
          ((sendResults.filter (fun r => r.success)).map (fun r => r.recordCount)).sum
        failedCount := (sendResults.filter (fun r => !r.success)).length }

/-! ## The Step Function trigger tool (`src/trigger-step-function.ts`) -/

/-- The trigger tool's concurrency cap: `private readonly concurrency: number
= 1` (`src/trigger-step-function.ts` line 23). -/
def StepFunctionTrigger.concurrency : Nat := 1

/-- An error thrown by the SFN client, carrying the AWS error name (such as
`ExecutionAlreadyExists`) and a message. -/
structure SfnError where
  name : String
  message : String
deriving DecidableEq, Repr

/-- `ExecutionResult` (`src/trigger-step-function.ts` lines 8-15); the
optional `skipped`/`redriven` flags are modelled as `Bool` with `false` for
absent. -/
structure ExecutionResult where
  time : String
  executionArn : Option String
  success : Bool
  skipped : Bool
  redriven : Bool
  error : Option String
deriving DecidableEq, Repr

/-- JS `String.replace('Z', '')` removes only the first occurrence. -/
def removeFirstZ : List Char → List Char
  | [] => []
  | ch :: rest => if ch = 'Z' then rest else ch :: removeFirstZ rest

/-- `generateExecutionName` (`src/trigger-step-function.ts` lines 120-123):
`time.toISOString().replace(/[:.]/g, '-').replace('Z', '')` prefixed with
`retry-execution-1-`.  The input is the slot's ISO-8601 string. -/
def generateExecutionName (iso : String) : String :=
  "retry-execution-1-" ++
    String.mk (removeFirstZ (iso.data.map
      (fun ch => if ch = ':' ∨ ch = '.' then '-' else ch)))

/-- `triggerStepFunction` (`src/trigger-step-function.ts` lines 156-227),
parametric in the `StartExecution` response `start`, applied to the execution
name and the slot's ISO time (the serialized input payload is
`{"time": <iso>}`; the oracle receives the iso string).  The
duplicate-detection block at lines 164-203 is commented out in the source and
therefore absent here: every thrown error, whatever its name, lands in the
`catch` at lines 220-226. -/
def triggerStepFunction (timeIso : String)
    (start : String → String → Except SfnError String) : ExecutionResult :=
  let executionName := generateExecutionName timeIso
  match start executionName timeIso with
  | Except.ok arn => ⟨timeIso, some arn, true, false, false, none⟩
  | Except.error e => ⟨timeIso, none, false, false, false, some e.message⟩

/-- The trigger tool's failure count (`src/trigger-step-function.ts` line
268): `results.filter(r => !r.success).length`. -/
def triggerFailureCount (results : List ExecutionResult) : Nat :=
  (results.filter (fun r => !r.success)).length

/-- Delivery success for a record list: the accumulated failure count across
all submitted batches is zero (`failureCount === 0`, `src/index.ts` line
312). -/
def deliveryOk (respond : List ρ → Except ε Nat) (records : List ρ) : Bool :=
  ((chunkRecords batchSize records).map (chunkFailures respond)).sum == 0

/-- The files of the replay run that enter the delivery stage: one per listed
key, restricted to those whose download-and-decode produced records. -/
def pipelineFiles (dl : String → Option ρ)
    (fetch : String → Except ε (Option String)) (keys : List String) :
    List (FileResult ρ) :=
  processedFiles (downloadStage
    (fun k => (downloadAndDecodeS3Object dl (fetch k)).1) keys)

/-! ## Helper lemmas -/

theorem natSum_eq_zero_iff (l : List Nat) : l.sum = 0 ↔ ∀ x ∈ l, x = 0 := by
  induction l with
  | nil => simp
  | cons x t ih => simp [Nat.add_eq_zero, ih]

theorem chunkLoop_flatten {n : Nat} (hn : 1 ≤ n) :
    ∀ (fuel : Nat) (l : List α), l.length ≤ fuel → (chunkLoop n fuel l).flatten = l := by
  intro fuel
  induction fuel with
  | zero =>
    intro l hl
    have hnil : l = [] := List.length_eq_zero.mp (Nat.le_zero.mp hl)
    subst hnil
    simp [chunkLoop]
  | succ fuel ih =>
    intro l hl
    cases l with
    | nil => simp [chunkLoop]
    | cons a t =>
      simp only [chunkLoop, List.flatten_cons]
      simp only [List.length_cons] at hl
      have hdrop : (List.drop n (a :: t)).length ≤ fuel := by
        simp only [List.length_drop, List.length_cons]
        omega
      rw [ih _ hdrop]
      exact List.take_append_drop n (a :: t)

theorem chunkLoop_length_le (n : Nat) :
    ∀ (fuel : Nat) (l : List α), ∀ chunk ∈ chunkLoop n fuel l, chunk.length ≤ n := by
  intro fuel
  induction fuel with
  | zero =>
    intro l chunk hc
    simp [chunkLoop] at hc
  | succ fuel ih =>
    intro l chunk hc
    cases l with
    | nil => simp [chunkLoop] at hc
    | cons a t =>
      simp only [chunkLoop, List.mem_cons] at hc
      rcases hc with h | h
      · subst h
        simp only [List.length_take]
        omega
      · exact ih _ _ h

theorem chunkLoop_ne_nil {n : Nat} (hn : 1 ≤ n) :
    ∀ (fuel : Nat) (l : List α), ∀ chunk ∈ chunkLoop n fuel l, chunk ≠ [] := by
  intro fuel
  induction fuel with
  | zero =>
    intro l chunk hc
    simp [chunkLoop] at hc
  | succ fuel ih =>
    intro l chunk hc
    cases l with
    | nil => simp [chunkLoop] at hc
    | cons a t =>
      simp only [chunkLoop, List.mem_cons] at hc
      rcases hc with h | h
      · subst h
        cases n with
        | zero => omega
        | succ m => simp
      · exact ih _ _ h

theorem chunkRecords_flatten {n : Nat} (hn : 1 ≤ n) (l : List α) :
    (chunkRecords n l).flatten = l :=
  chunkLoop_flatten hn l.length l le_rfl

theorem chunkRecords_length_le (n : Nat) (l : List α) :
    ∀ chunk ∈ chunkRecords n l, chunk.length ≤ n :=
  chunkLoop_length_le n l.length l

theorem chunkRecords_ne_nil {n : Nat} (hn : 1 ≤ n) (l : List α) :
    ∀ chunk ∈ chunkRecords n l, chunk ≠ [] :=
  chunkLoop_ne_nil hn l.length l

theorem sendToFirehose_ok {ρ ε : Type} (arn : String)
    (respond : List ρ → Except ε Nat) (records : List ρ)
    (hname : deliveryStreamName arn ≠ "") :
    (sendToFirehose arn respond records).2 = Except.ok (deliveryOk respond records) := by
  by_cases hrec : records.length = 0
  · have hnil : records = [] := List.length_eq_zero.mp hrec
    subst hnil
    simp [sendToFirehose, deliveryOk, chunkRecords, chunkLoop]
  · simp [sendToFirehose, hrec, hname, deliveryOk]

theorem deliveryOk_iff {ρ ε : Type} (respond : List ρ → Except ε Nat)
    (records : List ρ) :
    deliveryOk respond records = true ↔
      ∀ chunk ∈ chunkRecords batchSize records, chunkFailures respond chunk = 0 := by
  simp only [deliveryOk, beq_iff_eq, natSum_eq_zero_iff, List.mem_map,
    forall_exists_index, and_imp]
  constructor
  · intro h chunk hc
    exact h _ chunk hc rfl
  · intro h x chunk hc hx
    subst hx
    exact h chunk hc

theorem deliveryOk_all_error {ρ ε : Type} (e : ε) (records : List ρ)
    (hrec : records ≠ []) :
    deliveryOk (fun _ => (Except.error e : Except ε Nat)) records = false := by
  have h1 : ((chunkRecords batchSize records).map
        (chunkFailures (fun _ => (Except.error e : Except ε Nat)))) =
      (chunkRecords batchSize records).map List.length := rfl
  have h2 : ((chunkRecords batchSize records).map List.length).sum
      = records.length := by
    rw [← List.length_flatten, chunkRecords_flatten (by decide) records]
  have h3 : records.length ≠ 0 := by
    simpa [List.length_eq_zero] using hrec
  simp only [deliveryOk, h1, h2]
  simpa using h3

theorem deliveryStage_ok {ρ ε : Type} (arn : String)
    (respond : List ρ → Except ε Nat) (hname : deliveryStreamName arn ≠ "") :
    ∀ files : List (FileResult ρ),
      deliveryStage arn respond files = Except.ok (files.map
        (fun f => ⟨f.key, deliveryOk respond f.records, f.records.length⟩)) := by
  intro files
  induction files with
  | nil => rfl
  | cons f rest ih =>
    simp only [deliveryStage, sendToFirehose_ok arn respond f.records hname, ih,
      List.map_cons]

theorem runPipeline_ok {ρ ε ε2 : Type} (arn : String) (dl : String → Option ρ)
    (fetch : String → Except ε (Option String))
    (respond : List ρ → Except ε2 Nat) (keys : List String)
    (hname : deliveryStreamName arn ≠ "") :
    runPipeline arn dl fetch respond keys = Except.ok
      { filesToDelete := ((pipelineFiles dl fetch keys).filter
            (fun f => deliveryOk respond f.records)).map (fun f => f.key)
        sentCount := (((pipelineFiles dl fetch keys).filter
            (fun f => deliveryOk respond f.records)).map
            (fun f => f.records.length)).sum
        failedCount := ((pipelineFiles dl fetch keys).filter
            (fun f => !(deliveryOk respond f.records))).length } := by
  unfold runPipeline pipelineFiles
  rw [deliveryStage_ok arn respond hname]
  simp only [List.filter_map, List.map_map, List.length_map, Function.comp]
  rfl

theorem decodeLinesLoop_fst {ρ : Type} (dl : String → Option ρ) :
    ∀ lines : List String, (decodeLinesLoop dl lines).1 = lines.filterMap dl := by
  intro lines
  induction lines with
  | nil => rfl
  | cons line rest ih =>
    simp only [decodeLinesLoop, List.filterMap_cons]
    cases h : dl line <;> simp [h, ih]

theorem decodeLinesLoop_snd {ρ : Type} (dl : String → Option ρ) :
    ∀ lines : List String, (decodeLinesLoop dl lines).2 =
      ((lines.filter (fun l => (dl l).isNone)).map
        (fun l => String.mk (l.data.take 100))) := by
  intro lines
  induction lines with
  | nil => rfl
  | cons line rest ih =>
    simp only [decodeLinesLoop, List.filter_cons]
    cases h : dl line <;> simp [h, ih]

/-! ## Concrete runs of the runner, used by the claim witnesses -/

theorem reachTwoItemsMid :
    Reachable ["a", "bb"] 1 String.length
      (⟨1, [0], [none, none], 1⟩ : RunnerState Nat) := by
  have r0 : Reachable ["a", "bb"] 1 String.length
      (⟨0, [], [none, none], 0⟩ : RunnerState Nat) := Relation.ReflTransGen.refl
  have t1 : RunnerStep ["a", "bb"] 1 String.length
      (⟨0, [], [none, none], 0⟩ : RunnerState Nat) ⟨1, [0], [none, none], 1⟩ :=
    RunnerStep.start _ (by decide) (by decide)
  exact Relation.ReflTransGen.tail r0 t1

theorem reachTwoItems :
    Reachable ["a", "bb"] 1 String.length
      (⟨2, [], [some 1, some 2], 2⟩ : RunnerState Nat) := by
  have t2 : RunnerStep ["a", "bb"] 1 String.length
      (⟨1, [0], [none, none], 1⟩ : RunnerState Nat) ⟨1, [], [some 1, none], 1⟩ :=
    RunnerStep.complete _ 0 (by decide)
  have t3 : RunnerStep ["a", "bb"] 1 String.length
      (⟨1, [], [some 1, none], 1⟩ : RunnerState Nat) ⟨2, [1], [some 1, none], 2⟩ :=
    RunnerStep.start _ (by decide) (by decide)
  have t4 : RunnerStep ["a", "bb"] 1 String.length
      (⟨2, [1], [some 1, none], 2⟩ : RunnerState Nat) ⟨2, [], [some 1, some 2], 2⟩ :=
    RunnerStep.complete _ 1 (by decide)
  exact Relation.ReflTransGen.tail
    (Relation.ReflTransGen.tail (Relation.ReflTransGen.tail reachTwoItemsMid t2) t3) t4

/-- A per-item operation for the isolation example: the item `"x"` fails,
every other item succeeds. -/
def opExample : String → Outcome Nat :=
  fun a => if a = "x" then Outcome.failure "boom" else Outcome.success 7

theorem reachOpExample :
    Reachable ["x", "y"] 2 opExample
      (⟨2, [], [some (Outcome.failure "boom"), some (Outcome.success 7)], 2⟩
        : RunnerState (Outcome Nat)) := by
  have r0 : Reachable ["x", "y"] 2 opExample
      (⟨0, [], [none, none], 0⟩ : RunnerState (Outcome Nat)) :=
    Relation.ReflTransGen.refl
  have t1 : RunnerStep ["x", "y"] 2 opExample
      (⟨0, [], [none, none], 0⟩ : RunnerState (Outcome Nat))
      ⟨1, [0], [none, none], 1⟩ :=
    RunnerStep.start _ (by decide) (by decide)
  have t2 : RunnerStep ["x", "y"] 2 opExample
      (⟨1, [0], [none, none], 1⟩ : RunnerState (Outcome Nat))
      ⟨2, [1, 0], [none, none], 2⟩ :=
    RunnerStep.start _ (by decide) (by decide)
  have t3 : RunnerStep ["x", "y"] 2 opExample
      (⟨2, [1, 0], [none, none], 2⟩ : RunnerState (Outcome Nat))
      ⟨2, [0], [none, some (Outcome.success 7)], 2⟩ :=
    RunnerStep.complete _ 1 (by decide)
  have t4 : RunnerStep ["x", "y"] 2 opExample
      (⟨2, [0], [none, some (Outcome.success 7)], 2⟩ : RunnerState (Outcome Nat))
      ⟨2, [], [some (Outcome.failure "boom"), some (Outcome.success 7)], 2⟩ :=
    RunnerStep.complete _ 0 (by decide)
  exact Relation.ReflTransGen.tail (Relation.ReflTransGen.tail
    (Relation.ReflTransGen.tail (Relation.ReflTransGen.tail r0 t1) t2) t3) t4

/-! ## Claims -/

/-- C1: for every list of `n` items and every concurrency `c ≥ 1`, any
complete run of the bounded-concurrency runner (all items started, nothing
left in flight) returns exactly `n` outcomes in the same index order as the
input — slot `i` holds the operation's result for item `i`, regardless of the
completion order the environment chose — with exactly one invocation of the
per-item operation per item; an empty input yields an empty output with zero
invocations. -/
theorem runner_yields_ordered_outcomes {α β : Type} (items : List α) (c : Nat)
    (f : α → β) (s : RunnerState β) (hc : 1 ≤ c)
    (hreach : Reachable items c f s)
    (hstarted : s.nextIdx = items.length) (hdrained : s.pending = []) :
    s.results = items.map (fun a => some (f a)) ∧
    s.results.length = items.length ∧
    s.invocations = items.length ∧
    (items = [] → s.results = [] ∧ s.invocations = 0) := by
  have hinv := runnerInv_reachable hreach
  have hres := runner_final_results hreach hstarted hdrained
  refine ⟨hres, hinv.len, by rw [hinv.inv_eq, hstarted], ?_⟩
  rintro rfl
  constructor
  · simpa using hres
  · rw [hinv.inv_eq, hstarted]
    rfl

theorem runner_yields_ordered_outcomes_witness :
    (⟨2, [], [some 1, some 2], 2⟩ : RunnerState Nat).results
        = (["a", "bb"] : List String).map (fun a => some (String.length a)) ∧
    (⟨2, [], [some 1, some 2], 2⟩ : RunnerState Nat).results.length
        = (["a", "bb"] : List String).length ∧
    (⟨2, [], [some 1, some 2], 2⟩ : RunnerState Nat).invocations
        = (["a", "bb"] : List String).length ∧
    ((["a", "bb"] : List String) = [] →
      (⟨2, [], [some 1, some 2], 2⟩ : RunnerState Nat).results = [] ∧
      (⟨2, [], [some 1, some 2], 2⟩ : RunnerState Nat).invocations = 0) :=
  runner_yields_ordered_outcomes ["a", "bb"] 1 String.length
    (⟨2, [], [some 1, some 2], 2⟩ : RunnerState Nat) (by decide)
    reachTwoItems rfl rfl

/-- C2: at no reachable instant of a run of the bounded-concurrency runner
with cap `c ≥ 1` are more than `c` per-item operations concurrently
pending. -/
theorem runner_bounded_inflight {α β : Type} (items : List α) (c : Nat)
    (f : α → β) (s : RunnerState β) (hc : 1 ≤ c)
    (hreach : Reachable items c f s) : s.pending.length ≤ c :=
  (runnerInv_reachable hreach).cap

theorem runner_bounded_inflight_witness :
    (⟨1, [0], [none, none], 1⟩ : RunnerState Nat).pending.length ≤ 1 :=
  runner_bounded_inflight ["a", "bb"] 1 String.length
    (⟨1, [0], [none, none], 1⟩ : RunnerState Nat) (by decide) reachTwoItemsMid

/-- C3 counterexample: an item whose download operation throws is *not*
recorded as a failed Outcome.  For the single key `"k1"` whose S3 fetch
throws `NoSuchKey`, `downloadAndDecodeS3Object` swallows the error as an
empty record list and the whole run completes with `failedCount = 0` and an
outcome identical to that of a run over an object with no events. -/
theorem download_error_not_failed_outcome :
    (downloadAndDecodeS3Object (fun l => some l)
        (Except.error "NoSuchKey" : Except String (Option String))).1 = [] ∧
    runPipeline "deliverystream/s" (fun l => some l)
        (fun _ => (Except.error "NoSuchKey" : Except String (Option String)))
        (fun _ => (Except.ok 0 : Except Unit Nat)) ["k1"]
      = Except.ok ⟨[], 0, 0⟩ :=
  ⟨rfl, rfl⟩

/-- C3 (amended): every error inside a per-item operation is caught there and
never aborts the batch, and one item's failure does not prevent any other
item's operation from being invoked or succeeding (in a complete run every
slot holds its own item's outcome even when some item's operation failed).
Errors in the workflow-trigger and delivery operations are recorded as failed
Outcomes; an error caught inside the download-and-decode operation is instead
swallowed as an empty record list, not recorded as a failed Outcome. -/
theorem failures_isolated_and_recorded {α β ρ ε : Type}
    (items : List α) (c : Nat) (g : α → Outcome β)
    (s : RunnerState (Outcome β)) (a0 : α) (msg : String)
    (ha : a0 ∈ items) (hfail : g a0 = Outcome.failure msg)
    (hreach : Reachable items c g s)
    (hstarted : s.nextIdx = items.length) (hdrained : s.pending = []) :
    s.results = items.map (fun a => some (g a)) ∧
    s.invocations = items.length ∧
    (∀ (t : String) (e : SfnError),
      triggerStepFunction t (fun _ _ => Except.error e)
        = ⟨t, none, false, false, false, some e.message⟩) ∧
    (∀ (e : ε) (records : List ρ), records ≠ [] →
      (sendToFirehose "deliverystream/s"
          (fun _ => (Except.error e : Except ε Nat)) records).2
        = Except.ok false) ∧
    (∀ (dl : String → Option ρ) (e : ε),
      downloadAndDecodeS3Object dl (Except.error e : Except ε (Option String))
        = ([], [])) := by
  refine ⟨runner_final_results hreach hstarted hdrained, ?_, ?_, ?_, ?_⟩
  · rw [(runnerInv_reachable hreach).inv_eq, hstarted]
  · intro t e
    rfl
  · intro e records hrec
    rw [sendToFirehose_ok _ _ _ (by decide), deliveryOk_all_error e records hrec]
  · intro dl e
    rfl

theorem failures_isolated_and_recorded_witness :
    (⟨2, [], [some (Outcome.failure "boom"), some (Outcome.success 7)], 2⟩
        : RunnerState (Outcome Nat)).results
      = (["x", "y"] : List String).map (fun a => some (opExample a)) ∧
    (⟨2, [], [some (Outcome.failure "boom"), some (Outcome.success 7)], 2⟩
        : RunnerState (Outcome Nat)).invocations
      = (["x", "y"] : List String).length ∧
    (∀ (t : String) (e : SfnError),
      triggerStepFunction t (fun _ _ => Except.error e)
        = ⟨t, none, false, false, false, some e.message⟩) ∧
    (∀ (e : String) (records : List Nat), records ≠ [] →
      (sendToFirehose "deliverystream/s"
          (fun _ => (Except.error e : Except String Nat)) records).2
        = Except.ok false) ∧
    (∀ (dl : String → Option Nat) (e : String),
      downloadAndDecodeS3Object dl (Except.error e : Except String (Option String))
        = ([], [])) :=
  failures_isolated_and_recorded ["x", "y"] 2 opExample
    (⟨2, [], [some (Outcome.failure "boom"), some (Outcome.success 7)], 2⟩
      : RunnerState (Outcome Nat)) "x" "boom" (by decide) (by decide)
    reachOpExample rfl rfl

/-- C4: for every processed file of a run (with a well-formed stream
identifier), the source object is put on the deletion list exactly when the
file's delivery succeeded, and a delivery succeeds exactly when every
submitted chunk reports zero rejected records. -/
theorem delete_iff_delivery_ok {ρ ε ε2 : Type} (arn : String)
    (dl : String → Option ρ) (fetch : String → Except ε (Option String))
    (respond : List ρ → Except ε2 Nat) (keys : List String) (out : RunOutcome)
    (hname : deliveryStreamName arn ≠ "")
    (hrun : runPipeline arn dl fetch respond keys = Except.ok out) :
    out.filesToDelete = ((pipelineFiles dl fetch keys).filter
        (fun f => deliveryOk respond f.records)).map (fun f => f.key) ∧
    (∀ records : List ρ, deliveryOk respond records = true ↔
      ∀ chunk ∈ chunkRecords batchSize records, chunkFailures respond chunk = 0) := by
  have h := runPipeline_ok arn dl fetch respond keys hname
  rw [hrun] at h
  have hout := Except.ok.inj h
  subst hout
  exact ⟨rfl, fun records => deliveryOk_iff respond records⟩

theorem delete_iff_delivery_ok_witness :
    (⟨["k1"], 2, 0⟩ : RunOutcome).filesToDelete
      = ((pipelineFiles (fun l => some l)
          (fun k => if k = "k1"
            then (Except.ok (some "r1\nr2") : Except String (Option String))
            else Except.ok none) ["k1", "k2"]).filter
          (fun f => deliveryOk (fun _ => (Except.ok 0 : Except Unit Nat))
            f.records)).map (fun f => f.key) ∧
    (∀ records : List String,
      deliveryOk (fun _ => (Except.ok 0 : Except Unit Nat)) records = true ↔
      ∀ chunk ∈ chunkRecords batchSize records,
        chunkFailures (fun _ => (Except.ok 0 : Except Unit Nat)) chunk = 0) :=
  delete_iff_delivery_ok "deliverystream/s" (fun l => some l)
    (fun k => if k = "k1"
      then (Except.ok (some "r1\nr2") : Except String (Option String))
      else Except.ok none)
    (fun _ => (Except.ok 0 : Except Unit Nat)) ["k1", "k2"]
    (⟨["k1"], 2, 0⟩ : RunOutcome) (by decide) rfl

set_option maxRecDepth 10000 in
/-- C5: the delivery step partitions any record list into consecutive chunks
of at most `batchSize = 500` records, dropping and duplicating nothing (the
chunks concatenate back to the original list); a list of 1200 records is
split into chunks of sizes 500, 500, 200. -/
theorem chunking_partition {α : Type} (l : List α) :
    (chunkRecords batchSize l).flatten = l ∧
    (∀ chunk ∈ chunkRecords batchSize l, chunk.length ≤ batchSize) ∧
    (chunkRecords batchSize (List.replicate 1200 0)).map List.length
      = [500, 500, 200] :=
  ⟨chunkRecords_flatten (by decide) l, chunkRecords_length_le batchSize l,
    by decide⟩

theorem chunking_partition_witness :
    (chunkRecords batchSize ([1, 2, 3] : List Nat)).flatten = [1, 2, 3] ∧
    (∀ chunk ∈ chunkRecords batchSize ([1, 2, 3] : List Nat),
      chunk.length ≤ batchSize) ∧
    (chunkRecords batchSize (List.replicate 1200 0)).map List.length
      = [500, 500, 200] :=
  chunking_partition [1, 2, 3]

/-- C6 counterexample: a delivery-stream identifier containing no `/` does
*not* raise a configuration-shaped error: `sendToFirehose` resolves the
stream name to the whole identifier and proceeds to submit. -/
theorem no_slash_arn_not_rejected :
    deliveryStreamName "my-stream" = "my-stream" ∧
    (sendToFirehose "my-stream" (fun _ => (Except.ok 0 : Except Unit Nat))
        ([0] : List Nat)).2 = Except.ok true :=
  ⟨rfl, rfl⟩

theorem lastSlashSegAux_no_slash :
    ∀ (t : List Char) (cur : List Char), '/' ∉ t →
      lastSlashSegAux cur t = cur.reverse ++ t := by
  intro t
  induction t with
  | nil =>
    intro cur _
    simp [lastSlashSegAux]
  | cons ch rest ih =>
    intro cur ht
    have hch : ¬ ch = '/' := fun h => ht (by simp [h])
    have hrest : '/' ∉ rest := fun h => ht (List.mem_cons_of_mem _ h)
    simp only [lastSlashSegAux, if_neg hch, ih (ch :: cur) hrest,
      List.reverse_cons, List.append_assoc, List.cons_append, List.nil_append]

theorem lastSlashSegAux_append :
    ∀ (s : List Char) (cur : List Char) (t : List Char),
      lastSlashSegAux cur (s ++ '/' :: t) = lastSlashSegAux [] t := by
  intro s
  induction s with
  | nil =>
    intro cur t
    simp [lastSlashSegAux]
  | cons a s ih =>
    intro cur t
    by_cases ha : a = '/'
    · simp only [List.cons_append, lastSlashSegAux, if_pos ha]
      exact ih [] t
    · simp only [List.cons_append, lastSlashSegAux, if_neg ha]
      exact ih (a :: cur) t

/-- C6 (amended): the delivery stream name is the portion of the identifier
after the final `/` (the claim's concrete instance resolves to `my-stream`);
an identifier containing no `/` resolves to the whole identifier rather than
raising an error; the configuration-shaped `Invalid Firehose ARN format`
error is raised exactly when the portion after the final `/` is empty (the
identifier is empty or ends in `/`) and there is at least one record to
send, and in that case nothing is submitted — the throw happens before any
network call. -/
theorem stream_name_resolution {ρ ε : Type} (arn : String)
    (respond : List ρ → Except ε Nat) (records : List ρ) (hrec : records ≠ []) :
    deliveryStreamName
        "arn:aws:firehose:us-east-1:123456789012:deliverystream/my-stream"
      = "my-stream" ∧
    (∀ (s t : List Char), '/' ∉ t →
      deliveryStreamName (String.mk (s ++ '/' :: t)) = String.mk t) ∧
    ((sendToFirehose arn respond records).2
        = Except.error "Invalid Firehose ARN format" ↔
      deliveryStreamName arn = "") ∧
    (deliveryStreamName arn = "" →
      (sendToFirehose arn respond records).1 = []) := by
  have hlen : ¬ records.length = 0 := fun h => hrec (List.length_eq_zero.mp h)
  refine ⟨rfl, ?_, ?_, ?_⟩
  · intro s t ht
    unfold deliveryStreamName
    rw [show (String.mk (s ++ '/' :: t)).data = s ++ '/' :: t from rfl,
      lastSlashSegAux_append s [] t, lastSlashSegAux_no_slash t [] ht]
    rfl
  · by_cases hname : deliveryStreamName arn = "" <;>
      simp [sendToFirehose, hlen, hname]
  · intro hname
    simp [sendToFirehose, hlen, hname]

theorem stream_name_resolution_witness :
    deliveryStreamName
        "arn:aws:firehose:us-east-1:123456789012:deliverystream/my-stream"
      = "my-stream" ∧
    (∀ (s t : List Char), '/' ∉ t →
      deliveryStreamName (String.mk (s ++ '/' :: t)) = String.mk t) ∧
    ((sendToFirehose "deliverystream/my-stream"
          (fun _ => (Except.ok 0 : Except Unit Nat)) ([0] : List Nat)).2
        = Except.error "Invalid Firehose ARN format" ↔
      deliveryStreamName "deliverystream/my-stream" = "") ∧
    (deliveryStreamName "deliverystream/my-stream" = "" →
      (sendToFirehose "deliverystream/my-stream"
          (fun _ => (Except.ok 0 : Except Unit Nat)) ([0] : List Nat)).1 = []) :=
  stream_name_resolution "deliverystream/my-stream"
    (fun _ => (Except.ok 0 : Except Unit Nat)) ([0] : List Nat) (by decide)

/-- C7: during fetch-and-decode of one object, every line that fails to
parse or base64-decode is dropped individually, with a logged diagnostic
truncated to the first 100 characters of the offending line; the failure
does not fail the whole file — the operation still returns, in order, the
records of every line that decodes — and is not an error of the item. -/
theorem parse_failures_dropped {ρ : Type} (dl : String → Option ρ)
    (body : String) :
    (downloadAndDecodeS3Object dl
        (Except.ok (some body) : Except Unit (Option String))).1
      = (nonblankLines body).filterMap dl ∧
    (downloadAndDecodeS3Object dl
        (Except.ok (some body) : Except Unit (Option String))).2
      = ((nonblankLines body).filter (fun l => (dl l).isNone)).map
          (fun l => String.mk (l.data.take 100)) ∧
    (∀ line r, line ∈ nonblankLines body → dl line = some r →
      r ∈ (downloadAndDecodeS3Object dl
        (Except.ok (some body) : Except Unit (Option String))).1) := by
  refine ⟨decodeLinesLoop_fst dl (nonblankLines body),
    decodeLinesLoop_snd dl (nonblankLines body), ?_⟩
  intro line r hline hr
  have h1 : (downloadAndDecodeS3Object dl
      (Except.ok (some body) : Except Unit (Option String))).1
      = (nonblankLines body).filterMap dl :=
    decodeLinesLoop_fst dl (nonblankLines body)
  rw [h1]
  exact List.mem_filterMap.mpr ⟨line, hline, hr⟩

theorem parse_failures_dropped_witness :
    (downloadAndDecodeS3Object (fun l => if l = "bad" then none else some l)
        (Except.ok (some "good1\nbad\ngood2") : Except Unit (Option String))).1
      = (nonblankLines "good1\nbad\ngood2").filterMap
          (fun l => if l = "bad" then none else some l) ∧
    (downloadAndDecodeS3Object (fun l => if l = "bad" then none else some l)
        (Except.ok (some "good1\nbad\ngood2") : Except Unit (Option String))).2
      = ((nonblankLines "good1\nbad\ngood2").filter
          (fun l => (if l = "bad" then none else some l : Option String).isNone)).map
          (fun l => String.mk (l.data.take 100)) ∧
    (∀ line r, line ∈ nonblankLines "good1\nbad\ngood2" →
      (if line = "bad" then none else some line) = some r →
      r ∈ (downloadAndDecodeS3Object (fun l => if l = "bad" then none else some l)
        (Except.ok (some "good1\nbad\ngood2") : Except Unit (Option String))).1) :=
  parse_failures_dropped (fun l => if l = "bad" then none else some l)
    "good1\nbad\ngood2"

/-- C8 counterexample: a submission rejected because an execution with the
same name already exists is *not* distinguished from a failure: the
`ExecutionAlreadyExists` error lands in the generic catch, the result is
`success: false` with no `skipped` marker, and the item counts as failed in
the summary. -/
theorem already_exists_counted_as_failure :
    triggerStepFunction "2026-01-01T00:05:00.000Z"
        (fun _ _ => Except.error
          ⟨"ExecutionAlreadyExists", "Execution Already Exists"⟩)
      = ⟨"2026-01-01T00:05:00.000Z", none, false, false, false,
          some "Execution Already Exists"⟩ ∧
    triggerFailureCount [triggerStepFunction "2026-01-01T00:05:00.000Z"
        (fun _ _ => Except.error
          ⟨"ExecutionAlreadyExists", "Execution Already Exists"⟩)] = 1 :=
  ⟨rfl, rfl⟩

/-- C8 (amended): the execution-triggering operation starts a workflow
execution under the deterministic name `generateExecutionName` derived from
the slot time; a rejection because an execution with that name already exists
is caught and recorded as a failed item exactly like any other error — the
result depends only on the error's message, never on its name — rather than
being treated as a distinguished non-fatal duplicate condition (the
duplicate-tolerance logic is commented out in the source). -/
theorem trigger_deterministic_name_error_recorded (timeIso : String)
    (e : SfnError) :
    (triggerStepFunction timeIso (fun n _ => Except.ok n)).executionArn
      = some (generateExecutionName timeIso) ∧
    generateExecutionName "2026-01-01T00:05:00.000Z"
      = "retry-execution-1-2026-01-01T00-05-00-000" ∧
    triggerStepFunction timeIso (fun _ _ => Except.error e)
      = ⟨timeIso, none, false, false, false, some e.message⟩ :=
  ⟨rfl, rfl, rfl⟩

theorem trigger_deterministic_name_error_recorded_witness :
    (triggerStepFunction "2026-01-01T00:05:00.000Z"
        (fun n _ => Except.ok n)).executionArn
      = some (generateExecutionName "2026-01-01T00:05:00.000Z") ∧
    generateExecutionName "2026-01-01T00:05:00.000Z"
      = "retry-execution-1-2026-01-01T00-05-00-000" ∧
    triggerStepFunction "2026-01-01T00:05:00.000Z"
        (fun _ _ => Except.error
          ⟨"ExecutionAlreadyExists", "Execution Already Exists"⟩)
      = ⟨"2026-01-01T00:05:00.000Z", none, false, false, false,
          some "Execution Already Exists"⟩ :=
  trigger_deterministic_name_error_recorded "2026-01-01T00:05:00.000Z"
    ⟨"ExecutionAlreadyExists", "Execution Already Exists"⟩

/-- C9 counterexample: the replay tool's configured concurrency cap is not
20. -/
theorem concurrency_caps_not_twenty :
    ¬ (FirehoseErrorRetry.concurrency = 20 ∧
        StepFunctionTrigger.concurrency = 1) := by
  decide

/-- C9 (amended): in the reference configuration the concurrency cap used
for the storage and delivery operations of the replay tool equals 50, and
the cap used for workflow triggering equals 1. -/
theorem concurrency_caps_values :
    FirehoseErrorRetry.concurrency = 50 ∧
    StepFunctionTrigger.concurrency = 1 := by
  decide

theorem mem_filesToDelete_iff {ρ ε ε2 : Type} (dl : String → Option ρ)
    (fetch : String → Except ε (Option String))
    (respond : List ρ → Except ε2 Nat) (keys : List String) (k : String) :
    k ∈ ((pipelineFiles dl fetch keys).filter
        (fun f => deliveryOk respond f.records)).map (fun f => f.key) ↔
      k ∈ keys ∧ (downloadAndDecodeS3Object dl (fetch k)).1 ≠ [] ∧
        deliveryOk respond (downloadAndDecodeS3Object dl (fetch k)).1 = true := by
  unfold pipelineFiles processedFiles downloadStage
  constructor
  · intro hmem
    rw [List.mem_map] at hmem
    obtain ⟨f, hf, hfk⟩ := hmem
    rw [List.mem_filter] at hf
    obtain ⟨hf1, hok⟩ := hf
    rw [List.mem_filter] at hf1
    obtain ⟨hf2, hpos⟩ := hf1
    rw [List.mem_map] at hf2
    obtain ⟨k2, hk2, hgk⟩ := hf2
    subst hgk
    dsimp only at hfk hok hpos
    subst hfk
    refine ⟨hk2, ?_, hok⟩
    intro hnil
    rw [hnil] at hpos
    simp at hpos
  · rintro ⟨hk, hne, hok⟩
    rw [List.mem_map]
    refine ⟨⟨k, (downloadAndDecodeS3Object dl (fetch k)).1,
        (downloadAndDecodeS3Object dl (fetch k)).1.length⟩, ?_, rfl⟩
    rw [List.mem_filter]
    refine ⟨?_, hok⟩
    rw [List.mem_filter]
    refine ⟨?_, ?_⟩
    · rw [List.mem_map]
      exact ⟨k, hk, rfl⟩
    · simpa [List.length_pos] using hne

/-- C10: a listed key whose download-and-decode yields zero records — in
particular one whose download throws and is swallowed as an empty record
list — is never put on the deletion list; a key is deleted only when it
produced at least one decoded record and its delivery succeeded. -/
theorem empty_files_never_deleted {ρ ε ε2 : Type} (arn : String)
    (dl : String → Option ρ) (fetch : String → Except ε (Option String))
    (respond : List ρ → Except ε2 Nat) (keys : List String) (out : RunOutcome)
    (k : String) (hname : deliveryStreamName arn ≠ "")
    (hrun : runPipeline arn dl fetch respond keys = Except.ok out) :
    ((downloadAndDecodeS3Object dl (fetch k)).1 = [] →
      k ∉ out.filesToDelete) ∧
    (∀ e : ε, fetch k = Except.error e → k ∉ out.filesToDelete) ∧
    (k ∈ out.filesToDelete →
      (downloadAndDecodeS3Object dl (fetch k)).1 ≠ [] ∧
      deliveryOk respond (downloadAndDecodeS3Object dl (fetch k)).1 = true) := by
  have h := runPipeline_ok arn dl fetch respond keys hname
  rw [hrun] at h
  have hout := Except.ok.inj h
  subst hout
  refine ⟨?_, ?_, ?_⟩
  · intro hnil hmem
    exact ((mem_filesToDelete_iff dl fetch respond keys k).mp hmem).2.1 hnil
  · intro e he hmem
    apply ((mem_filesToDelete_iff dl fetch respond keys k).mp hmem).2.1
    rw [he]
    rfl
  · intro hmem
    exact ⟨((mem_filesToDelete_iff dl fetch respond keys k).mp hmem).2.1,
      ((mem_filesToDelete_iff dl fetch respond keys k).mp hmem).2.2⟩

theorem empty_files_never_deleted_witness :
    ((downloadAndDecodeS3Object (fun l => some l)
        ((fun k => if k = "bad"
          then (Except.error "boom" : Except String (Option String))
          else Except.ok (some "r")) "bad")).1 = [] →
      "bad" ∉ (⟨["good"], 1, 0⟩ : RunOutcome).filesToDelete) ∧
    (∀ e : String,
      (fun k => if k = "bad"
        then (Except.error "boom" : Except String (Option String))
        else Except.ok (some "r")) "bad" = Except.error e →
      "bad" ∉ (⟨["good"], 1, 0⟩ : RunOutcome).filesToDelete) ∧
    ("bad" ∈ (⟨["good"], 1, 0⟩ : RunOutcome).filesToDelete →
      (downloadAndDecodeS3Object (fun l => some l)
        ((fun k => if k = "bad"
          then (Except.error "boom" : Except String (Option String))
          else Except.ok (some "r")) "bad")).1 ≠ [] ∧
      deliveryOk (fun _ => (Except.ok 0 : Except Unit Nat))
        (downloadAndDecodeS3Object (fun l => some l)
          ((fun k => if k = "bad"
            then (Except.error "boom" : Except String (Option String))
            else Except.ok (some "r")) "bad")).1 = true) :=
  empty_files_never_deleted "deliverystream/s" (fun l => some l)
    (fun k => if k = "bad"
      then (Except.error "boom" : Except String (Option String))
      else Except.ok (some "r"))
    (fun _ => (Except.ok 0 : Except Unit Nat)) ["bad", "good"]
    (⟨["good"], 1, 0⟩ : RunOutcome) "bad" (by decide) rfl

end RetryFirehose
